import Mathlib

/-!
# dolanor/g: the render-to-texture demo `g.go`

A shallow embedding of `gfxLoop` (g.go, lines 48-192) and the properties of it
that the specification states.

Conventions of the embedding:

* Go `int` is the 64-bit two's complement integer: every `+`, `-`, `*` and `++`
  of the source on an `int` is followed by `wrapInt`.
* Go `float32`/`float64` values are taken exactly, as rationals.
* Calls into the engine (renderer, canvas, camera, stdout) are recorded as
  traces, in program order; what the engine answers (renderer bounds, the
  canvas returned by `RenderToTexture`, polled keyboard and mouse state, the
  clock delta) is an argument of the embedded code.
* The event goroutine and the frame loop are embedded one step at a time: one
  handled event, one loop iteration.
-/

namespace G

/-! ## Machine integers and `image` rectangles -/

/-- Reduction of an integer to the range of a 64-bit Go `int`. -/
def wrapInt (x : Int) : Int :=
  (x + 9223372036854775808) % 18446744073709551616 - 9223372036854775808

/-- Go `image.Point`. -/
structure Point where
  X : Int
  Y : Int
deriving DecidableEq

/-- Go `image.Rectangle`: the points with `Min.X ≤ x < Max.X`, `Min.Y ≤ y < Max.Y`. -/
structure Rectangle where
  Min : Point
  Max : Point
deriving DecidableEq

/-- Go `image.Rect`: the coordinates are swapped where needed, so that the
result is well-formed. -/
def imageRect (x0 y0 x1 y1 : Int) : Rectangle :=
  let xs : Int × Int := if x0 > x1 then (x1, x0) else (x0, x1)
  let ys : Int × Int := if y0 > y1 then (y1, y0) else (y0, y1)
  { Min := { X := xs.1, Y := ys.1 }, Max := { X := xs.2, Y := ys.2 } }

/-- Go `Rectangle.Dx`: the width `Max.X - Min.X`. -/
def Rectangle.Dx (r : Rectangle) : Int := wrapInt (r.Max.X - r.Min.X)

/-- Membership of the pixel `(x, y)` in a rectangle. -/
def Rectangle.hasPoint (r : Rectangle) (x y : Int) : Bool :=
  decide (r.Min.X ≤ x) && decide (x < r.Max.X) && decide (r.Min.Y ≤ y) && decide (y < r.Max.Y)

/-- Membership of the pixel column `x` in a rectangle. -/
def Rectangle.hasColumn (r : Rectangle) (x : Int) : Bool :=
  decide (r.Min.X ≤ x) && decide (x < r.Max.X)

/-! ## Engine values -/

/-- The engine's `lmath.Vec3` / `gfx.Vec3`. -/
structure Vec3 where
  X : ℚ
  Y : ℚ
  Z : ℚ
deriving DecidableEq

/-- Componentwise sum of two vectors. -/
def Vec3.add (a b : Vec3) : Vec3 := { X := a.X + b.X, Y := a.Y + b.Y, Z := a.Z + b.Z }

/-- The engine's `gfx.TexCoord`. -/
structure TexCoord where
  U : ℚ
  V : ℚ
deriving DecidableEq

/-- The engine's `gfx.Color` (red, green, blue, alpha). -/
structure Color where
  R : ℚ
  G : ℚ
  B : ℚ
  A : ℚ
deriving DecidableEq

/-- The keys of `keyboard.Key` that the program names; every other key is
`Other` with its code. -/
inductive Key where
  | ArrowLeft
  | ArrowRight
  | ArrowUp
  | ArrowDown
  | Space
  | Other (code : Nat)
deriving DecidableEq

/-- The engine's `keyboard.State` of a key. -/
inductive KeyState where
  | Down
  | Up
deriving DecidableEq

/-- The buttons of `mouse.Button`: the one the program names, and the others. -/
inductive MouseButton where
  | Left
  | Other (code : Nat)
deriving DecidableEq

/-- The events delivered on the `events` channel (`window.AllEvents`): the
three kinds the `switch` of the goroutine has a case for, and all others. -/
inductive Event where
  | TypedEvent (rune : Nat)
  | StateEvent (key : Key) (state : KeyState)
  | FramebufferResized (width height : Int)
  | OtherEvent (tag : Nat)
deriving DecidableEq

/-- The fields of `card` (a `gfx.Object`) that the program reads and writes
after setup: `Pos()`/`SetPos` and `Rot()`/`SetRot`. -/
structure Object where
  pos : Vec3
  rot : Vec3
deriving DecidableEq

/-- The object returned by `gfx.NewObject()`: at the origin, not rotated. -/
def newObject : Object := { pos := ⟨0, 0, 0⟩, rot := ⟨0, 0, 0⟩ }

/-- Calls on the camera `cam`. -/
inductive CamOp where
  | Lock
  | Unlock
  | SetPersp (bounds : Rectangle) (fov near far : ℚ)
  | SetPos (p : Vec3)
deriving DecidableEq

def camFOV : ℚ := 75.0
def camNear : ℚ := 0.0001
def camFar : ℚ := 1000.0

/-! ## The event goroutine (g.go, lines 110-142) -/

/-- What handling one event does: the object afterwards, the camera calls
issued and the lines printed, in order. -/
structure EventEffect where
  card : Object
  camOps : List CamOp
  printed : List (String × Event)
deriving DecidableEq

/-- The translation picked by the inner `switch e.Key` (lines 119-129). -/
def keyTrans (k : Key) : Vec3 :=
  let trans : Vec3 := ⟨0, 0, 0⟩
  match k with
  | Key.ArrowLeft => { trans with X := trans.X - 0.1 }
  | Key.ArrowRight => { trans with X := trans.X + 0.1 }
  | Key.ArrowUp => { trans with Z := trans.Z + 0.1 }
  | Key.ArrowDown => { trans with Z := trans.Z - 0.1 }
  | _ => trans

/-- One iteration of `for event := range events` (lines 114-141);
`rBounds` is what `r.Bounds()` answers. -/
def handleEvent (rBounds : Rectangle) (card : Object) (event : Event) : EventEffect :=
  match event with
  | Event.TypedEvent _ =>
    { card := card, camOps := [], printed := [("Pressed", event)] }
  | Event.StateEvent key _ =>
    let trans := keyTrans key
    { card := { card with pos := ⟨card.pos.X + trans.X, 0, card.pos.Z + trans.Z⟩ },
      camOps := [], printed := [] }
  | Event.FramebufferResized _ _ =>
    { card := card,
      camOps := [CamOp.Lock, CamOp.SetPersp rBounds camFOV camNear camFar, CamOp.Unlock],
      printed := [] }
  | Event.OtherEvent _ =>
    { card := card, camOps := [], printed := [] }

/-- The event goroutine on a queue of events: the events are handled one after
the other, each on the object the previous one left. -/
def handleEvents (rBounds : Rectangle) (card : Object) : List Event → EventEffect
  | [] => { card := card, camOps := [], printed := [] }
  | event :: rest =>
    let first := handleEvent rBounds card event
    let others := handleEvents rBounds first.card rest
    { card := others.card,
      camOps := first.camOps ++ others.camOps,
      printed := first.printed ++ others.printed }

/-! ## The per-frame loop (g.go, lines 164-191) -/

/-- The object handed to `r.Draw`: the program has the one object `card`. -/
inductive ObjRef where
  | card
deriving DecidableEq

/-- The camera handed to `r.Draw`: the program has the one camera `cam`. -/
inductive CamRef where
  | cam
deriving DecidableEq

/-- Calls on the renderer `r` that draw or present. -/
inductive RCall where
  | Clear (r : Rectangle) (c : Color)
  | ClearDepth (r : Rectangle) (depth : ℚ)
  | Draw (r : Rectangle) (o : ObjRef) (c : CamRef)
  | Render
deriving DecidableEq

/-- One iteration of the `for` loop of lines 164-191. `keyDown` is what
`w.Keyboard().Down` answers, `mouseDown` what `w.Mouse().Down` answers and `dt`
what `r.Clock().Dt()` answers. The result is the object after the iteration
and the renderer calls issued, in order. -/
def frame (keyDown : Key → Bool) (mouseDown : MouseButton → Bool) (dt : ℚ)
    (card : Object) : Object × List RCall :=
  let rot := card.rot
  let card : Object := { card with rot := { X := rot.X, Y := rot.Y, Z := rot.Z + 15 * dt } }
  let calls : List RCall :=
    [RCall.Clear (imageRect 0 0 0 0) ⟨1, 1, 1, 1⟩, RCall.ClearDepth (imageRect 0 0 0 0) 1.0]
  let calls := if keyDown Key.Space then
      calls ++ [RCall.Clear (imageRect 0 0 100 100) ⟨1, 0, 0, 1⟩] else calls
  let calls := if mouseDown MouseButton.Left then
      calls ++ [RCall.Clear (imageRect 100 100 200 200) ⟨0, 0, 1, 1⟩] else calls
  let calls := calls ++ [RCall.Draw (imageRect 0 0 0 0) ObjRef.card CamRef.cam]
  let calls := calls ++ [RCall.Render]
  (card, calls)

/-! ## The stripe loop (g.go, lines 144-162) -/

def stripeColor1 : Color := ⟨1, 0, 0, 1⟩
def stripeColor2 : Color := ⟨0, 0, 1, 1⟩
def stripeWidth : Int := 12

/-- The loop `for i := 0; (i * stripeWidth) < b.Dx(); i++` from the state
`(i, flipColor)`: the arguments of the `rtCanvas.Clear` calls it issues, in
order, or `none` when it is still running after `fuel` evaluations of its
condition. -/
def stripeLoop (b : Rectangle) : Nat → Int → Bool → Option (List (Rectangle × Color))
  | 0, _, _ => none
  | fuel + 1, i, flipColor =>
    if wrapInt (i * stripeWidth) < b.Dx then
      let flipColor := !flipColor
      let x := wrapInt (i * stripeWidth)
      let dst := imageRect x b.Min.Y (wrapInt (x + stripeWidth)) b.Max.Y
      let call : Rectangle × Color :=
        if flipColor then (dst, stripeColor1) else (dst, stripeColor2)
      (stripeLoop b fuel (wrapInt (i + 1)) flipColor).map (fun rest => call :: rest)
    else
      some []

/-- The stripe loop as the program starts it: `i = 0`, `flipColor = false`. -/
def stripes (b : Rectangle) (fuel : Nat) : Option (List (Rectangle × Color)) :=
  stripeLoop b fuel 0 false

/-! ## The mesh (g.go, lines 78-101) -/

/-- The fields of a `gfx.Mesh` that the program sets. -/
structure Mesh where
  Vertices : List Vec3
  TexCoords : List (List TexCoord)
deriving DecidableEq

def cardMesh : Mesh :=
  { Vertices := [
      ⟨-1, 0, -1⟩,
      ⟨1, 0, -1⟩,
      ⟨-1, 0, 1⟩,

      ⟨-1, 0, 1⟩,
      ⟨1, 0, -1⟩,
      ⟨1, 0, 1⟩],
    TexCoords := [[
      ⟨0, 1⟩,
      ⟨1, 1⟩,
      ⟨0, 0⟩,

      ⟨0, 0⟩,
      ⟨1, 1⟩,
      ⟨1, 0⟩]] }

/-! ## Scene setup (g.go, lines 50-72 and 144-162) and the whole of `gfxLoop` -/

/-- The texture `rtColor`, the one texture of the program. -/
inductive TexRef where
  | rtColor
deriving DecidableEq

/-- The engine's `gfx.RTTConfig`: the two fields the program sets, and the
formats picked by `ChooseConfig`, which the program passes on untouched. -/
structure RTTConfig where
  Color : Option TexRef
  Bounds : Rectangle
  formats : Nat
deriving DecidableEq

/-- A `gfx.Canvas` as the program uses the one from `RenderToTexture`: what
its `Bounds()` answers. -/
structure Canvas where
  bounds : Rectangle
deriving DecidableEq

/-- The calls of the whole program, in program order. -/
inductive Call where
  | Cam (op : CamOp)
  | RenderToTexture (cfg : RTTConfig)
  | CanvasClear (dst : Rectangle) (c : Color)
  | CanvasRender
  | R (c : RCall)
  | LogFatal (msg : String)
deriving DecidableEq

/-- Where a run of `gfxLoop` stands. -/
inductive Run where
  -- stopped by `log.Fatal` (line 71), after the calls of the trace
  | fatal (trace : List Call)
  -- still inside the stripe loop when the fuel ran out
  | inStripeLoop (trace : List Call)
  -- inside the per-frame loop, the given iterations done
  | inFrameLoop (trace : List Call) (card : Object)
deriving DecidableEq

/-- What one iteration of the per-frame loop is given by the engine. -/
structure FrameInput where
  keyDown : Key → Bool
  mouseDown : MouseButton → Bool
  dt : ℚ

/-- The per-frame loop on the given inputs, one iteration for each. -/
def frames : List FrameInput → Object → Object × List RCall
  | [], card => (card, [])
  | f :: rest, card =>
    let first := frame f.keyDown f.mouseDown f.dt card
    let others := frames rest first.1
    (others.1, first.2 ++ others.2)

/-- The configuration handed to `r.RenderToTexture` (lines 62-66): the one
picked by `ChooseConfig`, with `Color` and `Bounds` set. -/
def rttConfig (chosen : RTTConfig) : RTTConfig :=
  { chosen with Color := some TexRef.rtColor, Bounds := imageRect 0 0 512 512 }

/-- The function `gfxLoop`, without its goroutine: setup, the stripe loop with
the given fuel, then one iteration of the per-frame loop for each input.
`rBounds` is what `r.Bounds()` answers, `chosen` what `ChooseConfig` answers
and `renderToTexture` what `r.RenderToTexture` answers. -/
def gfxLoop (rBounds : Rectangle) (chosen : RTTConfig)
    (renderToTexture : RTTConfig → Option Canvas) (fuel : Nat)
    (inputs : List FrameInput) : Run :=
  let trace : List Call :=
    [Call.Cam (CamOp.SetPersp rBounds camFOV camNear camFar),
     Call.Cam (CamOp.SetPos ⟨0, -2, 0⟩)]
  let cfg := rttConfig chosen
  let trace := trace ++ [Call.RenderToTexture cfg]
  match renderToTexture cfg with
  | none =>
    Run.fatal (trace ++ [Call.LogFatal "Graphic card doesn't support render to texture"])
  | some rtCanvas =>
    let card := newObject
    let b := rtCanvas.bounds
    match stripes b fuel with
    | none => Run.inStripeLoop trace
    | some clears =>
      let trace := trace ++ clears.map (fun a => Call.CanvasClear a.1 a.2)
      let trace := trace ++ [Call.CanvasRender]
      let loop := frames inputs card
      Run.inFrameLoop (trace ++ loop.2.map Call.R) loop.1

/-! ## Runs of the program after setup -/

/-- One step of the running program: the goroutine handles an event, or the
main loop does one iteration. -/
inductive Step where
  | event (rBounds : Rectangle) (e : Event)
  | frame (f : FrameInput)

/-- The object after one step. -/
def step (card : Object) : Step → Object
  | Step.event rBounds e => (handleEvent rBounds card e).card
  | Step.frame f => (frame f.keyDown f.mouseDown f.dt card).1

/-- The object after the given steps, taken in order. -/
def run (card : Object) (steps : List Step) : Object := steps.foldl step card

/-- The object states that the running program can be in: those that some
sequence of steps leads to from `gfx.NewObject()`. -/
def Reachable (card : Object) : Prop := ∃ steps : List Step, run newObject steps = card

/-! ## Notions of the specification -/

/-- The translation that the specification gives for a key: a tenth of a unit
along X or Z for an arrow key, none for any other key. -/
def arrowDelta : Key → Option Vec3
  | Key.ArrowLeft => some ⟨-1/10, 0, 0⟩
  | Key.ArrowRight => some ⟨1/10, 0, 0⟩
  | Key.ArrowUp => some ⟨0, 0, 1/10⟩
  | Key.ArrowDown => some ⟨0, 0, -1/10⟩
  | _ => none

/-- Whether the camera lock is held after the given camera calls, when it was
`held` before them. -/
def lockHeldAfter (held : Bool) : List CamOp → Bool
  | [] => held
  | CamOp.Lock :: rest => lockHeldAfter true rest
  | CamOp.Unlock :: rest => lockHeldAfter false rest
  | _ :: rest => lockHeldAfter held rest

/-- Whether each reconfiguration of the camera among the given calls is made
with the lock held, when the lock was `held` before them. -/
def reconfiguresUnderLock (held : Bool) : List CamOp → Bool
  | [] => true
  | CamOp.Lock :: rest => reconfiguresUnderLock true rest
  | CamOp.Unlock :: rest => reconfiguresUnderLock false rest
  | _ :: rest => held && reconfiguresUnderLock held rest

/-- The number of stripes that the specification gives for a canvas of width
`W = b.Dx()`: `W / 12` rounded up. -/
def stripeCount (b : Rectangle) : Nat := ((b.Dx + 11) / 12).toNat

/-- The `i`-th clear that the specification gives for the stripe loop, counted
from 0: the rectangle of the columns `12 * i ≤ x < 12 * i + 12` and of the rows
of `b`, in red for even `i` and in blue for odd `i`. -/
def stripeSpecAt (b : Rectangle) (i : Nat) : Rectangle × Color :=
  ({ Min := { X := 12 * (i : Int), Y := b.Min.Y },
     Max := { X := 12 * (i : Int) + 12, Y := b.Max.Y } },
   if i % 2 = 0 then ⟨1, 0, 0, 1⟩ else ⟨0, 0, 1, 1⟩)

/-- The clears that the specification gives for the stripe loop on a canvas
of bounds `b`, in order. -/
def stripeSpec (b : Rectangle) : List (Rectangle × Color) :=
  (List.range (stripeCount b)).map (stripeSpecAt b)

/-- The `i`-th clear of the stripe loop, counted from 0, as long as none of
`i * stripeWidth` and `x + stripeWidth` wraps around. -/
def stripeClearAt (b : Rectangle) (i : Nat) : Rectangle × Color :=
  (imageRect (12 * (i : Int)) b.Min.Y (12 * (i : Int) + 12) b.Max.Y,
   if i % 2 = 0 then stripeColor1 else stripeColor2)

/-- The clears of the stripe loop on a canvas of bounds `b`, in order, as long
as no product or sum of the loop wraps around. -/
def stripeClears (b : Rectangle) : List (Rectangle × Color) :=
  (List.range (stripeCount b)).map (stripeClearAt b)

/-- The bounds that the program asks for its render-to-texture canvas
(line 66): (0,0)-(512,512). -/
def canvasBounds : Rectangle := imageRect 0 0 512 512

/-- The calls that paint or present: a clear of the canvas, the present of
the canvas, and every drawing call on the renderer (clear, draw, present). -/
def Call.paints : Call → Bool
  | Call.CanvasClear _ _ => true
  | Call.CanvasRender => true
  | Call.R _ => true
  | _ => false

/-! ## Theorems -/

theorem step_pos_Y (card : Object) (s : Step) (h : card.pos.Y = 0) :
    (step card s).pos.Y = 0 := by
  cases s with
  | event rb e => cases e <;> simp [step, handleEvent, h]
  | frame f => simpa [step, frame] using h

theorem run_pos_Y (steps : List Step) :
    ∀ card : Object, card.pos.Y = 0 → (run card steps).pos.Y = 0 := by
  induction steps with
  | nil => intro card h; simpa [run] using h
  | cons s rest ih =>
    intro card h
    have := ih (step card s) (step_pos_Y card s h)
    simpa [run] using this

theorem reachable_pos_Y (card : Object) (h : Reachable card) : card.pos.Y = 0 := by
  obtain ⟨steps, rfl⟩ := h
  exact run_pos_Y steps newObject rfl

/-- C1. For a keyboard state event with an arrow key and an object position
reachable from the initial one, handling the event sets the position to the
old position plus the translation of the key: (-0.1, 0, 0) for ArrowLeft,
(+0.1, 0, 0) for ArrowRight, (0, 0, +0.1) for ArrowUp, (0, 0, -0.1) for
ArrowDown. For a state event with any other key, X and Z of the position are
unchanged, from every position. -/
theorem arrow_key_translation :
    (∀ (card : Object) (rBounds : Rectangle) (key : Key) (state : KeyState) (d : Vec3),
      Reachable card → arrowDelta key = some d →
        (handleEvent rBounds card (Event.StateEvent key state)).card.pos = card.pos.add d) ∧
    (∀ (card : Object) (rBounds : Rectangle) (key : Key) (state : KeyState),
      arrowDelta key = none →
        (handleEvent rBounds card (Event.StateEvent key state)).card.pos.X = card.pos.X ∧
        (handleEvent rBounds card (Event.StateEvent key state)).card.pos.Z = card.pos.Z) := by
  constructor
  · intro card rBounds key state d hr hd
    have hy := reachable_pos_Y card hr
    cases key <;> simp [arrowDelta] at hd <;> subst hd <;>
      simp [handleEvent, keyTrans, Vec3.add, hy] <;> norm_num
  · intro card rBounds key state hd
    cases key <;> simp [arrowDelta] at hd <;> simp [handleEvent, keyTrans]

/-- Witness of C1: the object after one ArrowUp event is reachable, and an
ArrowLeft event moves it from (0, 0, 0.1) to (-0.1, 0, 0.1). -/
theorem arrow_key_translation_witness :
    (handleEvent (imageRect 0 0 640 480)
        (run newObject [Step.event (imageRect 0 0 640 480) (Event.StateEvent Key.ArrowUp KeyState.Down)])
        (Event.StateEvent Key.ArrowLeft KeyState.Down)).card.pos
      = (run newObject [Step.event (imageRect 0 0 640 480)
          (Event.StateEvent Key.ArrowUp KeyState.Down)]).pos.add ⟨-1/10, 0, 0⟩ :=
  arrow_key_translation.1 _ _ Key.ArrowLeft KeyState.Down _ ⟨_, rfl⟩ rfl

/-- C10. Handling an event never changes the rotation of the object; a
key-typed event, a framebuffer-resized event (and any event that is not a
keyboard state event) leaves the position unchanged; after a keyboard state
event, whatever the key and the position before, Y of the position is 0; and
Y of the position is 0 in every reachable state. -/
theorem event_effects_confined :
    (∀ (rBounds : Rectangle) (card : Object) (e : Event),
      (handleEvent rBounds card e).card.rot = card.rot) ∧
    (∀ (rBounds : Rectangle) (card : Object) (rune : Nat),
      (handleEvent rBounds card (Event.TypedEvent rune)).card.pos = card.pos) ∧
    (∀ (rBounds : Rectangle) (card : Object) (width height : Int),
      (handleEvent rBounds card (Event.FramebufferResized width height)).card.pos = card.pos) ∧
    (∀ (rBounds : Rectangle) (card : Object) (tag : Nat),
      (handleEvent rBounds card (Event.OtherEvent tag)).card.pos = card.pos) ∧
    (∀ (rBounds : Rectangle) (card : Object) (key : Key) (state : KeyState),
      (handleEvent rBounds card (Event.StateEvent key state)).card.pos.Y = 0) ∧
    (∀ (steps : List Step), (run newObject steps).pos.Y = 0) := by
  refine ⟨?_, ?_, ?_, ?_, ?_, ?_⟩
  · intro rBounds card e
    cases e <;> rfl
  · intro rBounds card rune; rfl
  · intro rBounds card width height; rfl
  · intro rBounds card tag; rfl
  · intro rBounds card key state; rfl
  · intro steps
    exact run_pos_Y steps newObject rfl

/-- C5. The camera calls issued while handling an event are Lock,
SetPersp(renderer bounds, 75.0, 0.0001, 1000.0), Unlock, in this order, for a
framebuffer-resized event, and none for any other event. Hence, the lock not
being held before, it is not held after the event, and the camera is only
reconfigured with the lock held; the same holds for any queue of events. -/
theorem camera_lock_discipline :
    (∀ (rBounds : Rectangle) (card : Object) (e : Event),
      (handleEvent rBounds card e).camOps =
        (match e with
         | Event.FramebufferResized _ _ =>
           [CamOp.Lock, CamOp.SetPersp rBounds 75 (1 / 10000) 1000, CamOp.Unlock]
         | _ => [])) ∧
    (∀ (rBounds : Rectangle) (card : Object) (e : Event),
      lockHeldAfter false (handleEvent rBounds card e).camOps = false ∧
      reconfiguresUnderLock false (handleEvent rBounds card e).camOps = true) ∧
    (∀ (rBounds : Rectangle) (events : List Event) (card : Object),
      lockHeldAfter false (handleEvents rBounds card events).camOps = false ∧
      reconfiguresUnderLock false (handleEvents rBounds card events).camOps = true) := by
  refine ⟨?_, ?_, ?_⟩
  · intro rBounds card e
    cases e <;> simp [handleEvent, camFOV, camNear, camFar]
    norm_num
  · intro rBounds card e
    cases e <;> simp [handleEvent, lockHeldAfter, reconfiguresUnderLock]
  · intro rBounds events
    induction events with
    | nil => intro card; simp [handleEvents, lockHeldAfter, reconfiguresUnderLock]
    | cons e rest ih =>
      intro card
      have h := ih (handleEvent rBounds card e).card
      cases e <;>
        simpa [handleEvents, handleEvent, lockHeldAfter, reconfiguresUnderLock] using h

/-- C6, as the code has it. One iteration of the per-frame loop leaves the
position of the object and X and Y of its rotation as they were, and adds
15 times the clock delta to Z of its rotation; so the object is left as it was
exactly when the clock delta is 0. -/
theorem frame_object_effect (keyDown : Key → Bool) (mouseDown : MouseButton → Bool)
    (dt : ℚ) (card : Object) :
    (frame keyDown mouseDown dt card).1.pos = card.pos ∧
    (frame keyDown mouseDown dt card).1.rot.X = card.rot.X ∧
    (frame keyDown mouseDown dt card).1.rot.Y = card.rot.Y ∧
    (frame keyDown mouseDown dt card).1.rot.Z = card.rot.Z + 15 * dt ∧
    ((frame keyDown mouseDown dt card).1 = card ↔ dt = 0) := by
  refine ⟨rfl, rfl, rfl, rfl, ?_⟩
  obtain ⟨pos, ⟨rx, ry, rz⟩⟩ := card
  simp [frame]

/-- C6 as stated fails: with a clock delta of 1, one iteration turns the
rotation (0, 0, 0) of the new object into (0, 0, 15). -/
theorem frame_rotation_changes :
    (frame (fun _ => false) (fun _ => false) 1 newObject).1.rot = ⟨0, 0, 15⟩ ∧
    (frame (fun _ => false) (fun _ => false) 1 newObject).1.rot ≠ newObject.rot := by
  constructor
  · simp [frame, newObject]
  · simp [frame, newObject]

/-- C2. Whatever the keyboard state, the mouse state, the object and the clock
delta, the renderer calls of one iteration of the per-frame loop contain
exactly one present call (Render), and it is the last call. -/
theorem frame_presents_once (keyDown : Key → Bool) (mouseDown : MouseButton → Bool)
    (dt : ℚ) (card : Object) :
    (frame keyDown mouseDown dt card).2.count RCall.Render = 1 ∧
    (frame keyDown mouseDown dt card).2.getLast? = some RCall.Render := by
  cases h1 : keyDown Key.Space <;> cases h2 : mouseDown MouseButton.Left <;>
    simp [frame, h1, h2]

/-- C3. The renderer calls of one iteration of the per-frame loop are, in
order: a colour clear of the empty rectangle to white; a depth clear of the
empty rectangle to 1.0; a red clear of (0,0)-(100,100) exactly when Space is
down; a blue clear of (100,100)-(200,200) exactly when the left mouse button
is down; one draw call of the card with the camera; present. There is no
other call, and each overlay clear depends on its own input only. -/
theorem frame_call_sequence (keyDown : Key → Bool) (mouseDown : MouseButton → Bool)
    (dt : ℚ) (card : Object) :
    (frame keyDown mouseDown dt card).2 =
      [RCall.Clear ⟨⟨0, 0⟩, ⟨0, 0⟩⟩ ⟨1, 1, 1, 1⟩,
       RCall.ClearDepth ⟨⟨0, 0⟩, ⟨0, 0⟩⟩ 1]
      ++ (if keyDown Key.Space = true
            then [RCall.Clear ⟨⟨0, 0⟩, ⟨100, 100⟩⟩ ⟨1, 0, 0, 1⟩] else [])
      ++ (if mouseDown MouseButton.Left = true
            then [RCall.Clear ⟨⟨100, 100⟩, ⟨200, 200⟩⟩ ⟨0, 0, 1, 1⟩] else [])
      ++ [RCall.Draw ⟨⟨0, 0⟩, ⟨0, 0⟩⟩ ObjRef.card CamRef.cam, RCall.Render] := by
  cases h1 : keyDown Key.Space <;> cases h2 : mouseDown MouseButton.Left <;>
    simp [frame, h1, h2, imageRect] <;> norm_num

/-- C7. The card mesh has 6 vertices and one texture-coordinate set, of 6
coordinates; each vertex has y = 0 and x, z in {-1, 1}; the vertices that
occur are exactly the four corners of the square [-1,1] x [-1,1] of the XZ
plane; the texture coordinate at each index is ((x + 1) / 2, (1 - z) / 2) for
the vertex (x, 0, z) at that index; so equal vertices have equal texture
coordinates. -/
theorem card_mesh_textured_quad :
    cardMesh.Vertices.length = 6 ∧
    cardMesh.TexCoords.length = 1 ∧
    (∀ set ∈ cardMesh.TexCoords, set.length = 6) ∧
    (∀ v ∈ cardMesh.Vertices, v.Y = 0 ∧ (v.X = -1 ∨ v.X = 1) ∧ (v.Z = -1 ∨ v.Z = 1)) ∧
    (∀ v : Vec3, v ∈ cardMesh.Vertices ↔
      v = ⟨-1, 0, -1⟩ ∨ v = ⟨1, 0, -1⟩ ∨ v = ⟨-1, 0, 1⟩ ∨ v = ⟨1, 0, 1⟩) ∧
    cardMesh.Vertices.dedup.length = 4 ∧
    (∀ set ∈ cardMesh.TexCoords, ∀ (i : Nat) (v : Vec3), cardMesh.Vertices[i]? = some v →
      set[i]? = some ⟨(v.X + 1) / 2, (1 - v.Z) / 2⟩) ∧
    (∀ set ∈ cardMesh.TexCoords, ∀ (i j : Nat) (v : Vec3),
      cardMesh.Vertices[i]? = some v → cardMesh.Vertices[j]? = some v →
        set[i]? = set[j]? ∧ (set[i]?).isSome = true) := by
  have hidx : ∀ (i : Nat) (v : Vec3), cardMesh.Vertices[i]? = some v →
      ([⟨0, 1⟩, ⟨1, 1⟩, ⟨0, 0⟩, ⟨0, 0⟩, ⟨1, 1⟩, ⟨1, 0⟩] : List TexCoord)[i]? =
        some ⟨(v.X + 1) / 2, (1 - v.Z) / 2⟩ := by
    intro i v hv
    match i, hv with
    | 0, hv => simp [cardMesh] at hv; subst hv; norm_num
    | 1, hv => simp [cardMesh] at hv; subst hv; norm_num
    | 2, hv => simp [cardMesh] at hv; subst hv; norm_num
    | 3, hv => simp [cardMesh] at hv; subst hv; norm_num
    | 4, hv => simp [cardMesh] at hv; subst hv; norm_num
    | 5, hv => simp [cardMesh] at hv; subst hv; norm_num
    | n + 6, hv => simp [cardMesh] at hv
  refine ⟨rfl, rfl, ?_, ?_, ?_, ?_, ?_, ?_⟩
  · intro set hset
    simp [cardMesh] at hset
    subst hset
    rfl
  · intro v hv
    simp [cardMesh] at hv
    rcases hv with h | h | h | h | h <;> subst h <;> simp
  · intro v
    simp [cardMesh]
    tauto
  · decide
  · intro set hset i v hv
    simp [cardMesh] at hset
    subst hset
    exact hidx i v hv
  · intro set hset i j v hi hj
    simp [cardMesh] at hset
    subst hset
    rw [hidx i v hi, hidx j v hj]
    simp

theorem wrapInt_eq (x : Int) (h1 : -9223372036854775808 ≤ x) (h2 : x < 9223372036854775808) :
    wrapInt x = x := by
  unfold wrapInt
  omega

theorem stripeCount_bounds (b : Rectangle) (h0 : 0 ≤ b.Dx) :
    b.Dx ≤ 12 * (stripeCount b : Int) ∧ 12 * (stripeCount b : Int) < b.Dx + 12 := by
  unfold stripeCount
  omega

theorem stripeLoop_unrolled (b : Rectangle) (hmax : b.Dx ≤ 9223372036854775800) :
    ∀ (k i fuel : Nat) (flipColor : Bool), i + k = stripeCount b → k < fuel →
      flipColor = decide (i % 2 = 1) →
      stripeLoop b fuel (i : Int) flipColor = some ((List.range' i k).map (stripeClearAt b)) := by
  have hn : b.Dx ≤ 12 * (stripeCount b : Int) ∧
      (0 < stripeCount b → 12 * (stripeCount b : Int) < b.Dx + 12) := by
    unfold stripeCount
    omega
  intro k
  induction k with
  | zero =>
    intro i fuel flipColor hi hf _
    obtain ⟨fuel, rfl⟩ : ∃ m, fuel = m + 1 := ⟨fuel - 1, by omega⟩
    have hw : wrapInt ((i : Int) * 12) = (i : Int) * 12 := wrapInt_eq _ (by omega) (by omega)
    have hc : ¬ ((i : Int) * 12 < b.Dx) := by omega
    simp [stripeLoop, stripeWidth, hw, hc]
  | succ k ih =>
    intro i fuel flipColor hi hf hflip
    obtain ⟨fuel, rfl⟩ : ∃ m, fuel = m + 1 := ⟨fuel - 1, by omega⟩
    have hw : wrapInt ((i : Int) * 12) = (i : Int) * 12 := wrapInt_eq _ (by omega) (by omega)
    have hw2 : wrapInt ((i : Int) * 12 + 12) = (i : Int) * 12 + 12 :=
      wrapInt_eq _ (by omega) (by omega)
    have hw3 : wrapInt ((i : Int) + 1) = ((i + 1 : Nat) : Int) := by
      rw [wrapInt_eq _ (by omega) (by omega)]; push_cast; rfl
    have hc : (i : Int) * 12 < b.Dx := by omega
    have hrec := ih (i + 1) fuel (!flipColor) (by omega) (by omega)
      (by subst hflip; rcases Nat.mod_two_eq_zero_or_one i with h | h <;> simp [h] <;> omega)
    have hhead : (if (!flipColor) = true then
          (imageRect ((i : Int) * 12) b.Min.Y ((i : Int) * 12 + 12) b.Max.Y, stripeColor1)
        else (imageRect ((i : Int) * 12) b.Min.Y ((i : Int) * 12 + 12) b.Max.Y, stripeColor2)) =
        stripeClearAt b i := by
      subst hflip
      rcases Nat.mod_two_eq_zero_or_one i with h | h <;>
        simp [h, stripeClearAt, mul_comm]
    simp only [stripeLoop, stripeWidth, hw, hw2, hw3, hc, if_true, hrec, Option.map_some',
      List.range'_succ, List.map_cons, hhead]

theorem stripes_unrolled (b : Rectangle) (hmax : b.Dx ≤ 9223372036854775800) (fuel : Nat)
    (hfuel : stripeCount b < fuel) : stripes b fuel = some (stripeClears b) := by
  have h := stripeLoop_unrolled b hmax (stripeCount b) 0 fuel false (by omega) hfuel (by simp)
  simpa [stripes, stripeClears, List.range_eq_range'] using h

theorem stripeClearAt_eq (b : Rectangle) (hY : b.Min.Y ≤ b.Max.Y) (i : Nat) :
    stripeClearAt b i = stripeSpecAt b i := by
  have h1 : ¬ (12 * (i : Int) > 12 * (i : Int) + 12) := by omega
  have h2 : ¬ (b.Min.Y > b.Max.Y) := by omega
  rcases Nat.mod_two_eq_zero_or_one i with h | h <;>
    simp [stripeClearAt, stripeSpecAt, imageRect, h1, h2, h, stripeColor1, stripeColor2]

theorem stripes_closed_form (b : Rectangle) (hY : b.Min.Y ≤ b.Max.Y)
    (hmax : b.Dx ≤ 9223372036854775800) (fuel : Nat) (hfuel : stripeCount b < fuel) :
    stripes b fuel = some (stripeSpec b) := by
  rw [stripes_unrolled b hmax fuel hfuel]
  have h : stripeClearAt b = stripeSpecAt b := funext (stripeClearAt_eq b hY)
  simp [stripeClears, stripeSpec, h]

theorem stripeSpec_getElem? (b : Rectangle) (i : Nat) :
    (stripeSpec b)[i]? = if i < stripeCount b then some (stripeSpecAt b i) else none := by
  unfold stripeSpec
  by_cases h : i < stripeCount b
  · simp [h, List.getElem?_range]
  · simp [h]
    omega

theorem stripeLoop_never_ends (b : Rectangle) (hb : b.Dx = 9223372036854775807) :
    ∀ (fuel : Nat) (i : Int) (flipColor : Bool), stripeLoop b fuel i flipColor = none := by
  intro fuel
  induction fuel with
  | zero => intro i flipColor; rfl
  | succ fuel ih =>
    intro i flipColor
    have hc : wrapInt (i * 12) < b.Dx := by
      rw [hb]
      unfold wrapInt
      omega
    simp [stripeLoop, stripeWidth, hc, ih]

/-- C8, as the code has it. For canvas bounds `b` with `b.Min.Y ≤ b.Max.Y`
and a width `W = b.Dx()` with `0 ≤ W ≤ 2^63 - 8`, the stripe loop finishes:
with any fuel above `⌈W / 12⌉` it yields exactly the clears of the closed
form. These are `⌈W / 12⌉` clears, the `i`-th (from 0) of the rectangle
`12 i ≤ x < 12 i + 12`, `b.Min.Y ≤ y < b.Max.Y`, in red (1,0,0,1) for even `i`
and blue (0,0,1,1) for odd `i`. For the canvas (0,0)-(512,512) of the program
they are 43 clears, the first one red. -/
theorem stripe_loop_refines_spec (b : Rectangle) (hY : b.Min.Y ≤ b.Max.Y) (h0 : 0 ≤ b.Dx)
    (hmax : b.Dx ≤ 9223372036854775800) :
    (∀ fuel : Nat, stripeCount b < fuel → stripes b fuel = some (stripeSpec b)) ∧
    (stripeSpec b).length = stripeCount b ∧
    ((stripeCount b : Int) = ⌈(b.Dx : ℚ) / 12⌉) ∧
    (∀ i : Nat, i < stripeCount b →
      (stripeSpec b)[i]? = some
        ({ Min := { X := 12 * (i : Int), Y := b.Min.Y },
           Max := { X := 12 * (i : Int) + 12, Y := b.Max.Y } },
         if i % 2 = 0 then ⟨1, 0, 0, 1⟩ else ⟨0, 0, 1, 1⟩)) ∧
    (stripeCount canvasBounds = 43 ∧
      (stripes canvasBounds 44).map List.length = some 43 ∧
      (stripes canvasBounds 44).map List.head? =
        some (some (⟨⟨0, 0⟩, ⟨12, 512⟩⟩, ⟨1, 0, 0, 1⟩))) := by
  refine ⟨fun fuel hfuel => stripes_closed_form b hY hmax fuel hfuel, ?_, ?_, ?_, ?_⟩
  · simp [stripeSpec]
  · have hn := stripeCount_bounds b h0
    symm
    rw [Int.ceil_eq_iff]
    have h1 : ((12 * (stripeCount b : Int) : Int) : ℚ) < ((b.Dx + 12 : Int) : ℚ) := by
      exact_mod_cast hn.2
    have h2 : ((b.Dx : Int) : ℚ) ≤ ((12 * (stripeCount b : Int) : Int) : ℚ) := by
      exact_mod_cast hn.1
    push_cast at h1 h2 ⊢
    constructor
    · linarith
    · linarith
  · intro i hi
    rw [stripeSpec_getElem?, if_pos hi]
    rfl
  · have hs : stripes canvasBounds 44 = some (stripeSpec canvasBounds) :=
      stripes_closed_form canvasBounds (by decide) (by decide) 44 (by decide)
    refine ⟨by decide, ?_, ?_⟩
    · rw [hs]; simp [stripeSpec]; decide
    · rw [hs]; decide

/-- Witness of C8: the canvas (0,0)-(512,512) of the program meets the
hypotheses, and the loop on it yields the 43 clears of the closed form. -/
theorem stripe_loop_refines_spec_witness :
    stripes canvasBounds 44 = some (stripeSpec canvasBounds) ∧
    (stripeSpec canvasBounds).length = 43 :=
  ⟨(stripe_loop_refines_spec canvasBounds (by decide) (by decide) (by decide)).1 44 (by decide),
   (stripe_loop_refines_spec canvasBounds (by decide) (by decide) (by decide)).2.1⟩

/-- C8 as stated fails, in two ways. For the bounds (0,5)-(12,0), of width 12,
the one clear is of the rectangle (0,0)-(12,5), with rows 0 to 4, where the
closed form has the rows from 5 up to 0, that is none. For the bounds
(0,0)-(2^63 - 1, 1), of width 2^63 - 1, the condition of the loop holds for
every `i`, as `i * 12` wraps around: the loop never finishes. -/
theorem stripe_loop_spec_fails :
    ((⟨⟨0, 5⟩, ⟨12, 0⟩⟩ : Rectangle).Dx = 12 ∧
      stripes ⟨⟨0, 5⟩, ⟨12, 0⟩⟩ 2 = some [(⟨⟨0, 0⟩, ⟨12, 5⟩⟩, ⟨1, 0, 0, 1⟩)] ∧
      stripeSpec ⟨⟨0, 5⟩, ⟨12, 0⟩⟩ = [(⟨⟨0, 5⟩, ⟨12, 0⟩⟩, ⟨1, 0, 0, 1⟩)] ∧
      (∀ fuel : Nat, stripes ⟨⟨0, 5⟩, ⟨12, 0⟩⟩ fuel ≠ some (stripeSpec ⟨⟨0, 5⟩, ⟨12, 0⟩⟩))) ∧
    ((⟨⟨0, 0⟩, ⟨9223372036854775807, 1⟩⟩ : Rectangle).Dx = 9223372036854775807 ∧
      (∀ fuel : Nat, stripes ⟨⟨0, 0⟩, ⟨9223372036854775807, 1⟩⟩ fuel = none)) := by
  refine ⟨⟨by decide, by decide, by decide, ?_⟩, by decide, ?_⟩
  · intro fuel
    match fuel with
    | 0 => decide
    | 1 => decide
    | n + 2 =>
      have h : stripes ⟨⟨0, 5⟩, ⟨12, 0⟩⟩ (n + 2) =
          some [(⟨⟨0, 0⟩, ⟨12, 5⟩⟩, ⟨1, 0, 0, 1⟩)] := by
        simp [stripes, stripeLoop, stripeWidth, Rectangle.Dx, wrapInt, imageRect, stripeColor1]
      rw [h]
      decide
  · intro fuel
    exact stripeLoop_never_ends _ (by decide) fuel 0 false

theorem canvas_stripes : stripes canvasBounds 44 = some (stripeSpec canvasBounds) :=
  stripes_closed_form canvasBounds (by decide) (by decide) 44 (by decide)

theorem canvas_stripe_at (i : Nat) (a : Rectangle × Color)
    (h : (stripeSpec canvasBounds)[i]? = some a) :
    i < 43 ∧ a = (⟨⟨12 * (i : Int), 0⟩, ⟨12 * (i : Int) + 12, 512⟩⟩,
      if i % 2 = 0 then ⟨1, 0, 0, 1⟩ else ⟨0, 0, 1, 1⟩) := by
  rw [stripeSpec_getElem?] at h
  have hc : stripeCount canvasBounds = 43 := by decide
  rw [hc] at h
  by_cases hi : i < 43
  · rw [if_pos hi] at h
    refine ⟨hi, ?_⟩
    have h' := (Option.some.inj h).symm
    rw [h']
    rfl
  · rw [if_neg hi] at h
    cases h

/-- C9, as the code has it. On the canvas (0,0)-(512,512) of the program the
stripe loop issues 43 clears. Every pixel column `0 ≤ x < 512` lies in exactly
one of their rectangles; two consecutive clears have different colours; every
rectangle has the rows 0 to 511 of the canvas and starts at a column of the
canvas; every rectangle but the last is contained in the bounds of the canvas.
The last one is (504,0)-(516,512): it reaches 4 columns beyond the canvas. -/
theorem stripes_tile_canvas :
    canvasBounds = ⟨⟨0, 0⟩, ⟨512, 512⟩⟩ ∧
    ∃ calls : List (Rectangle × Color),
      stripes canvasBounds 44 = some calls ∧ calls.length = 43 ∧
      (∀ x : Int, 0 ≤ x → x < 512 →
        ∃! i : Nat, ∃ a, calls[i]? = some a ∧ a.1.hasColumn x = true) ∧
      (∀ (i : Nat) (a a' : Rectangle × Color),
        calls[i]? = some a → calls[i + 1]? = some a' → a.2 ≠ a'.2) ∧
      (∀ a ∈ calls, a.1.Min.Y = 0 ∧ a.1.Max.Y = 512 ∧ 0 ≤ a.1.Min.X ∧ a.1.Min.X < 512) ∧
      (∀ (i : Nat) (a : Rectangle × Color), i < 42 → calls[i]? = some a →
        ∀ x y : Int, a.1.hasPoint x y = true → canvasBounds.hasPoint x y = true) ∧
      calls[42]? = some (⟨⟨504, 0⟩, ⟨516, 512⟩⟩, ⟨1, 0, 0, 1⟩) := by
  have hb : canvasBounds = ⟨⟨0, 0⟩, ⟨512, 512⟩⟩ := by decide
  refine ⟨hb, stripeSpec canvasBounds, canvas_stripes, by decide, ?_, ?_, ?_, ?_, by decide⟩
  · intro x hx0 hx1
    have hc : stripeCount canvasBounds = 43 := by decide
    refine ⟨(x / 12).toNat, ⟨stripeSpecAt canvasBounds (x / 12).toNat, ?_, ?_⟩, ?_⟩
    · rw [stripeSpec_getElem?, if_pos]
      omega
    · simp [stripeSpecAt, Rectangle.hasColumn]
      omega
    · rintro j ⟨a, ha, hcol⟩
      obtain ⟨hj, rfl⟩ := canvas_stripe_at j a ha
      simp [Rectangle.hasColumn] at hcol
      omega
  · intro i a a' ha ha'
    obtain ⟨_, rfl⟩ := canvas_stripe_at i a ha
    obtain ⟨_, rfl⟩ := canvas_stripe_at (i + 1) a' ha'
    rcases Nat.mod_two_eq_zero_or_one i with h | h
    · have h' : (i + 1) % 2 = 1 := by omega
      simp [h, h']
    · have h' : (i + 1) % 2 = 0 := by omega
      simp [h, h']
  · intro a ha
    obtain ⟨i, hi⟩ := List.getElem?_of_mem ha
    obtain ⟨hi', rfl⟩ := canvas_stripe_at i a hi
    refine ⟨rfl, rfl, ?_, ?_⟩
    · show (0 : Int) ≤ 12 * (i : Int)
      omega
    · show 12 * (i : Int) < 512
      omega
  · intro i a hi ha x y hp
    obtain ⟨_, rfl⟩ := canvas_stripe_at i a ha
    rw [hb]
    simp [Rectangle.hasPoint] at hp ⊢
    omega

/-- C9 as stated fails: the 43rd clear of the stripe loop on the canvas
(0,0)-(512,512) is of the rectangle (504,0)-(516,512), which has the pixel
(512, 0), a pixel that the bounds of the canvas do not have. -/
theorem stripes_overshoot_canvas :
    (stripes canvasBounds 44).map (fun calls => calls[42]?) =
      some (some (⟨⟨504, 0⟩, ⟨516, 512⟩⟩, ⟨1, 0, 0, 1⟩)) ∧
    (⟨⟨504, 0⟩, ⟨516, 512⟩⟩ : Rectangle).hasPoint 512 0 = true ∧
    canvasBounds.hasPoint 512 0 = false := by
  decide

/-- C4, as the code has it. A run of `gfxLoop` is stopped by `log.Fatal`
exactly when `RenderToTexture` answers nil for the configuration of the
program. The trace of a run stopped this way ends with the logged message and
has no call that paints or presents: no stripe clear, no draw, no present.
When a canvas is returned no run is stopped; and when the canvas has a width
of at most 2^63 - 8 the stripe loop finishes and the run gets into the
per-frame loop, its trace being the setup calls, the stripe clears, the
present of the canvas and the calls of the iterations done. A canvas with the
bounds asked for in the configuration, (0,0)-(512,512), has such a width, and
its stripe clears are the 43 of the closed form. -/
theorem single_failure_path (rBounds : Rectangle) (chosen : RTTConfig)
    (renderToTexture : RTTConfig → Option Canvas) :
    (∀ (fuel : Nat) (inputs : List FrameInput),
      (∃ trace, gfxLoop rBounds chosen renderToTexture fuel inputs = Run.fatal trace) ↔
        renderToTexture (rttConfig chosen) = none) ∧
    (∀ (fuel : Nat) (inputs : List FrameInput) (trace : List Call),
      gfxLoop rBounds chosen renderToTexture fuel inputs = Run.fatal trace →
        trace.getLast? =
          some (Call.LogFatal "Graphic card doesn't support render to texture") ∧
        ∀ c ∈ trace, c.paints = false) ∧
    (∀ canvas : Canvas, renderToTexture (rttConfig chosen) = some canvas →
      canvas.bounds.Dx ≤ 9223372036854775800 →
      ∀ (fuel : Nat) (inputs : List FrameInput), stripeCount canvas.bounds < fuel →
        gfxLoop rBounds chosen renderToTexture fuel inputs =
          Run.inFrameLoop
            ([Call.Cam (CamOp.SetPersp rBounds 75 (1 / 10000) 1000),
              Call.Cam (CamOp.SetPos ⟨0, -2, 0⟩),
              Call.RenderToTexture (rttConfig chosen)]
              ++ (stripeClears canvas.bounds).map (fun a => Call.CanvasClear a.1 a.2)
              ++ [Call.CanvasRender]
              ++ (frames inputs newObject).2.map Call.R)
            (frames inputs newObject).1) ∧
    (∀ canvas : Canvas, canvas.bounds = (rttConfig chosen).Bounds →
      canvas.bounds.Dx ≤ 9223372036854775800 ∧ stripeCount canvas.bounds = 43 ∧
      stripeClears canvas.bounds = stripeSpec canvasBounds) := by
  refine ⟨?_, ?_, ?_, ?_⟩
  · intro fuel inputs
    cases h : renderToTexture (rttConfig chosen) with
    | none => simp [gfxLoop, h]
    | some canvas =>
      cases hs : stripes canvas.bounds fuel <;> simp [gfxLoop, h, hs]
  · intro fuel inputs trace hrun
    cases h : renderToTexture (rttConfig chosen) with
    | none =>
      simp [gfxLoop, h] at hrun
      subst hrun
      simp [Call.paints]
    | some canvas =>
      cases hs : stripes canvas.bounds fuel <;> simp [gfxLoop, h, hs] at hrun
  · intro canvas h hmax fuel inputs hfuel
    have hs := stripes_unrolled canvas.bounds hmax fuel hfuel
    simp only [gfxLoop, h, hs, camFOV, camNear, camFar]
    norm_num
  · intro canvas hb
    have hb' : canvas.bounds = canvasBounds := hb
    rw [hb']
    refine ⟨by decide, by decide, ?_⟩
    have h : stripeClearAt canvasBounds = stripeSpecAt canvasBounds :=
      funext (stripeClearAt_eq canvasBounds (by decide))
    simp [stripeClears, stripeSpec, h]

/-- Witness of C4: with a renderer that has no canvas the run is stopped by
`log.Fatal`; with a renderer that returns a canvas of the bounds asked for, the
run is in the per-frame loop after the setup calls and the stripe clears. -/
theorem single_failure_path_witness :
    (∃ trace, gfxLoop ⟨⟨0, 0⟩, ⟨640, 480⟩⟩ ⟨none, ⟨⟨0, 0⟩, ⟨0, 0⟩⟩, 0⟩ (fun _ => none) 44 [] =
      Run.fatal trace) ∧
    gfxLoop ⟨⟨0, 0⟩, ⟨640, 480⟩⟩ ⟨none, ⟨⟨0, 0⟩, ⟨0, 0⟩⟩, 0⟩
        (fun cfg => some ⟨cfg.Bounds⟩) 44 [] =
      Run.inFrameLoop
        ([Call.Cam (CamOp.SetPersp ⟨⟨0, 0⟩, ⟨640, 480⟩⟩ 75 (1 / 10000) 1000),
          Call.Cam (CamOp.SetPos ⟨0, -2, 0⟩),
          Call.RenderToTexture (rttConfig ⟨none, ⟨⟨0, 0⟩, ⟨0, 0⟩⟩, 0⟩)]
          ++ (stripeClears (⟨(rttConfig ⟨none, ⟨⟨0, 0⟩, ⟨0, 0⟩⟩, 0⟩).Bounds⟩ : Canvas).bounds).map
              (fun a => Call.CanvasClear a.1 a.2)
          ++ [Call.CanvasRender]
          ++ (frames [] newObject).2.map Call.R)
        (frames [] newObject).1 :=
  ⟨((single_failure_path ⟨⟨0, 0⟩, ⟨640, 480⟩⟩ ⟨none, ⟨⟨0, 0⟩, ⟨0, 0⟩⟩, 0⟩
      (fun _ => none)).1 44 []).2 rfl,
   (single_failure_path ⟨⟨0, 0⟩, ⟨640, 480⟩⟩ ⟨none, ⟨⟨0, 0⟩, ⟨0, 0⟩⟩, 0⟩
      (fun cfg => some ⟨cfg.Bounds⟩)).2.2.1 ⟨(rttConfig ⟨none, ⟨⟨0, 0⟩, ⟨0, 0⟩⟩, 0⟩).Bounds⟩
      rfl (by decide) 44 [] (by decide)⟩

/-- C4 as stated fails: when `RenderToTexture` returns a canvas of bounds
(0,0)-(2^63 - 1, 1), of width 2^63 - 1, the run is not stopped, yet it never
gets into the per-frame loop: whatever the fuel and the frame inputs, it is
still in the stripe loop, the condition of which holds for every `i`. -/
theorem canvas_returned_loop_not_reached :
    (⟨⟨0, 0⟩, ⟨9223372036854775807, 1⟩⟩ : Rectangle).Dx = 9223372036854775807 ∧
    (∀ (fuel : Nat) (inputs : List FrameInput),
      gfxLoop ⟨⟨0, 0⟩, ⟨640, 480⟩⟩ ⟨none, ⟨⟨0, 0⟩, ⟨0, 0⟩⟩, 0⟩
          (fun _ => some ⟨⟨⟨0, 0⟩, ⟨9223372036854775807, 1⟩⟩⟩) fuel inputs =
        Run.inStripeLoop
          [Call.Cam (CamOp.SetPersp ⟨⟨0, 0⟩, ⟨640, 480⟩⟩ 75 (1 / 10000) 1000),
           Call.Cam (CamOp.SetPos ⟨0, -2, 0⟩),
           Call.RenderToTexture (rttConfig ⟨none, ⟨⟨0, 0⟩, ⟨0, 0⟩⟩, 0⟩)]) ∧
    (∀ (fuel : Nat) (inputs : List FrameInput) (trace : List Call) (card : Object),
      gfxLoop ⟨⟨0, 0⟩, ⟨640, 480⟩⟩ ⟨none, ⟨⟨0, 0⟩, ⟨0, 0⟩⟩, 0⟩
          (fun _ => some ⟨⟨⟨0, 0⟩, ⟨9223372036854775807, 1⟩⟩⟩) fuel inputs ≠
        Run.inFrameLoop trace card) := by
  have hs : ∀ fuel : Nat,
      stripes (⟨⟨0, 0⟩, ⟨9223372036854775807, 1⟩⟩ : Rectangle) fuel = none :=
    fun fuel => stripeLoop_never_ends _ (by decide) fuel 0 false
  have hrun : ∀ (fuel : Nat) (inputs : List FrameInput),
      gfxLoop ⟨⟨0, 0⟩, ⟨640, 480⟩⟩ ⟨none, ⟨⟨0, 0⟩, ⟨0, 0⟩⟩, 0⟩
          (fun _ => some ⟨⟨⟨0, 0⟩, ⟨9223372036854775807, 1⟩⟩⟩) fuel inputs =
        Run.inStripeLoop
          [Call.Cam (CamOp.SetPersp ⟨⟨0, 0⟩, ⟨640, 480⟩⟩ 75 (1 / 10000) 1000),
           Call.Cam (CamOp.SetPos ⟨0, -2, 0⟩),
           Call.RenderToTexture (rttConfig ⟨none, ⟨⟨0, 0⟩, ⟨0, 0⟩⟩, 0⟩)] := by
    intro fuel inputs
    simp only [gfxLoop, hs, camFOV, camNear, camFar]
    norm_num
  refine ⟨by decide, hrun, ?_⟩
  intro fuel inputs trace card h
  rw [hrun fuel inputs] at h
  cases h

end G
